import Mathlib

/-!
Verification of the Schelling segregation model from the notebook
"Agent-Based Models Schelling Segregation.ipynb".

Cell states are the notebook's numeric codes: `0` = Empty, `1` = Type A,
`2` = Type B.  The numpy array `grid` of shape `(size, size)` is embedded
as a structure holding the size and a total function from row/column
indices to the stored code; all accesses performed by the notebook's code
stay inside `[0, size)` (neighbor coordinates are wrapped with `%`).
Similarity fractions (`same / total` on small nonnegative integers) are
embedded as rationals; the Python `None` sentinel becomes `Option.none`.

Randomness is made explicit: every call of `np.random.*` becomes a
parameter.  `initialize_grid` receives, for each coordinate, the Boolean
outcomes of its two comparisons `rand() < fraction_empty` and
`rand() < fraction_A`; `update` receives the list of sampled grid
coordinates together with a seed for the random index into the
empty-cell list (`np.random.randint n` is modelled as `seed % n`, which
ranges over exactly the values the generator can produce).
`np.random.randint 0` raises `ValueError` in Python; `update` therefore
returns an `Option`, with `none` marking that fault.
-/

namespace Schelling

/-! ### Data model and operations, embedded from the notebook -/

/-- A `size × size` numpy array of cell codes, as a total function.
`grid[x, y]` in the notebook is `g.cells x y`; `grid.shape[0]` and
`grid.shape[1]` are both `g.size`. -/
structure Grid where
  size : ℕ
  cells : ℕ → ℕ → ℕ

/-- Per-cell outcomes of the two random draws made by `initialize_grid`:
the first component is the outcome of `np.random.rand() < fraction_empty`,
the second of `np.random.rand() < fraction_A`. -/
def Coins : Type := ℕ → ℕ → Bool × Bool

/-- Embeds `initialize_grid(size, fraction_empty, fraction_A)`: for each `(i, j)`
(rows outer, columns inner), mark the cell Empty (code 0) and append
`(i, j)` to `empty_cells` if the first draw succeeds, else Type A (code 1)
if the second draw succeeds, else Type B (code 2). -/
def initialize_grid (size : ℕ) (coins : Coins) : Grid × List (ℕ × ℕ) :=
  (⟨size, fun i j => if (coins i j).1 then 0 else if (coins i j).2 then 1 else 2⟩,
   (List.range size).flatMap fun i =>
     (List.range size).filterMap fun j =>
       if (coins i j).1 then some (i, j) else none)

/-- The eight Moore-neighborhood offsets, in the notebook's order. -/
def directions : List (ℤ × ℤ) :=
  [(-1, -1), (-1, 0), (-1, 1), (0, -1), (0, 1), (1, -1), (1, 0), (1, 1)]

/-- The wrapped neighbor coordinate `((x + dx) % grid.shape[0],
(y + dy) % grid.shape[1])`.  Python's `%` on a positive modulus returns a
nonnegative result, as does `Int.emod`. -/
def wrap (g : Grid) (x y : ℕ) (d : ℤ × ℤ) : ℕ × ℕ :=
  ((((x : ℤ) + d.1) % (g.size : ℤ)).toNat, (((y : ℤ) + d.2) % (g.size : ℤ)).toNat)

/-- Loop body of `fraction_neighbors_same`: the accumulator is the pair
`(same, total)`. -/
def countStep (g : Grid) (agent x y : ℕ) (st : ℕ × ℕ) (d : ℤ × ℤ) : ℕ × ℕ :=
  let p := wrap g x y d
  let neighbor := g.cells p.1 p.2
  if 0 < neighbor then
    (st.1 + (if neighbor = agent then 1 else 0), st.2 + 1)
  else st

/-- Embeds `fraction_neighbors_same(x, y, grid)`: `None` for an Empty cell, else
count non-Empty wrapped Moore neighbors (`total`) and those sharing the
cell's type (`same`); `None` if `total == 0`, else `same / total`. -/
def fraction_neighbors_same (x y : ℕ) (g : Grid) : Option ℚ :=
  let agent := g.cells x y
  if agent = 0 then none
  else
    let st := directions.foldl (countStep g agent x y) (0, 0)
    if st.2 = 0 then none
    else some ((st.1 : ℚ) / (st.2 : ℚ))

/-- Embeds `is_satisfied(x, y, grid, similarity_threshold)`: `True` when the
fraction is `None`, else `fraction_same >= similarity_threshold`. -/
def is_satisfied (x y : ℕ) (g : Grid) (similarity_threshold : ℚ) : Bool :=
  match fraction_neighbors_same x y g with
  | none => true
  | some fraction_same => decide (similarity_threshold ≤ fraction_same)

/-- The mutable state of one run: the grid together with the
`emptycells` list. -/
structure SimState where
  grid : Grid
  emptycells : List (ℕ × ℕ)

/-- The random draws consumed by one iteration of `update`'s inner loop:
the sampled raw coordinates (taken `% size`, modelling
`np.random.randint(size, size=2)`) and a seed for the index into
`emptycells` (used only when the sampled cell is unsatisfied). -/
def Pick : Type := (ℕ × ℕ) × ℕ

/-- One iteration of `update`'s loop.  If the sampled cell is satisfied,
nothing happens.  Otherwise `randindex = np.random.randint(len(emptycells))`
faults when the list is empty (`none`); else the drawn empty cell
`(new_x, new_y)` receives the agent's code, the source becomes Empty
(Python evaluates `grid[x,y], 0` first, then assigns `grid[new_x,new_y]`
and finally `grid[x,y]`, so the write to `(x, y)` wins on collision), and
the list slot is redirected to `(x, y)`. -/
def updateIter (size : ℕ) (similarity_threshold : ℚ) :
    Option (SimState × Bool) → Pick → Option (SimState × Bool)
  | none, _ => none
  | some (st, was_move), pick =>
    if is_satisfied (pick.1.1 % size) (pick.1.2 % size) st.grid similarity_threshold then
      some (st, was_move)
    else if st.emptycells.length = 0 then none
    else
      some (⟨⟨st.grid.size, fun i j =>
        if i = pick.1.1 % size ∧ j = pick.1.2 % size then 0
        else if i = (st.emptycells.getD (pick.2 % st.emptycells.length) (0, 0)).1 ∧
            j = (st.emptycells.getD (pick.2 % st.emptycells.length) (0, 0)).2 then
          st.grid.cells (pick.1.1 % size) (pick.1.2 % size)
        else st.grid.cells i j⟩,
        st.emptycells.set (pick.2 % st.emptycells.length)
          (pick.1.1 % size, pick.1.2 % size)⟩, true)

/-- Embeds `update(grid, emptycells, size, similarity_threshold, agents_per_step)`:
fold the loop body over the tick's random draws (`agents_per_step` many),
starting from `was_move = False`. -/
def update (g : Grid) (emptycells : List (ℕ × ℕ)) (size : ℕ)
    (similarity_threshold : ℚ) (picks : List Pick) :
    Option (Grid × List (ℕ × ℕ) × Bool) :=
  (picks.foldl (updateIter size similarity_threshold) (some (⟨g, emptycells⟩, false))).map
    fun r => (r.1.grid, r.1.emptycells, r.2)

/-- Embeds `average_neighbor_similarity(grid)`: collect the non-`None` values of
`fraction_neighbors_same` over all coordinates (rows outer, columns inner)
and return their mean.  `np.mean` of an empty list yields `nan` (with a
runtime warning); that sentinel is embedded as `none`. -/
def average_neighbor_similarity (g : Grid) : Option ℚ :=
  let l := (List.range g.size).flatMap fun i =>
    (List.range g.size).filterMap fun j => fraction_neighbors_same i j g
  if l.length = 0 then none else some (l.sum / (l.length : ℚ))

/-- The driver loop of the experiment cells: call `update` once per tick,
threading grid and empty list, recording each tick's `was_move` flag; a
fault in any tick aborts the run. -/
def run_updates (g : Grid) (emptycells : List (ℕ × ℕ)) (size : ℕ)
    (similarity_threshold : ℚ) :
    List (List Pick) → Option (Grid × List (ℕ × ℕ) × List Bool)
  | [] => some (g, emptycells, [])
  | picks :: rest =>
    match update g emptycells size similarity_threshold picks with
    | none => none
    | some (g2, ec2, b) =>
      match run_updates g2 ec2 size similarity_threshold rest with
      | none => none
      | some (g3, ec3, bs) => some (g3, ec3, b :: bs)

/-- The eight wrapped Moore-neighbor coordinates of `(x, y)`: the offsets
`{-1, 0, 1} × {-1, 0, 1}` minus `(0, 0)`, each wrapped modulo the grid
size in both axes. -/
def neighborCoords (g : Grid) (x y : ℕ) : List (ℕ × ℕ) :=
  directions.map (wrap g x y)

/-- Spec-level count of non-Empty wrapped Moore neighbors (`total`). -/
def totalCount (g : Grid) (x y : ℕ) : ℕ :=
  (neighborCoords g x y).countP fun p => decide (0 < g.cells p.1 p.2)

/-- Spec-level count of non-Empty wrapped Moore neighbors sharing the type
of the cell at `(x, y)` (`same`). -/
def sameCount (g : Grid) (x y : ℕ) : ℕ :=
  (neighborCoords g x y).countP fun p =>
    decide (0 < g.cells p.1 p.2 ∧ g.cells p.1 p.2 = g.cells x y)

/-- All grid coordinates, row-major. -/
def coordList (size : ℕ) : List (ℕ × ℕ) :=
  (List.range size) ×ˢ (List.range size)

/-- Number of grid cells holding the code `v`. -/
def cellCount (g : Grid) (v : ℕ) : ℕ :=
  (coordList g.size).countP fun p => decide (g.cells p.1 p.2 = v)

/-- Consistency of the `emptycells` list with the grid: no duplicates,
every listed coordinate is in range and Empty, and every in-range Empty
cell is listed. -/
def consistent (g : Grid) (ec : List (ℕ × ℕ)) : Prop :=
  ec.Nodup ∧
  (∀ p ∈ ec, p.1 < g.size ∧ p.2 < g.size ∧ g.cells p.1 p.2 = 0) ∧
  (∀ i ∈ List.range g.size, ∀ j ∈ List.range g.size, g.cells i j = 0 → (i, j) ∈ ec)

/-- States reachable through the notebook's driver: `initialize_grid`
followed by any number of completed `update` calls (every call site passes
the grid's own size as the `size` argument). -/
inductive Reachable : Grid → List (ℕ × ℕ) → Prop where
  | init (size : ℕ) (coins : Coins) (hpos : 0 < size) :
      Reachable (initialize_grid size coins).1 (initialize_grid size coins).2
  | step (g : Grid) (ec : List (ℕ × ℕ)) (thr : ℚ) (picks : List Pick)
      (g2 : Grid) (ec2 : List (ℕ × ℕ)) (b : Bool) (hr : Reachable g ec)
      (h : update g ec g.size thr picks = some (g2, ec2, b)) :
      Reachable g2 ec2

/-- Sample random draws for a concrete run: every cell comes out Empty. -/
def coinsAllEmpty : Coins := fun _ _ => (true, true)

instance (g : Grid) (ec : List (ℕ × ℕ)) : Decidable (consistent g ec) :=
  decidable_of_iff (ec.Nodup ∧
    (∀ p ∈ ec, p.1 < g.size ∧ p.2 < g.size ∧ g.cells p.1 p.2 = 0) ∧
    (∀ i ∈ List.range g.size, ∀ j ∈ List.range g.size,
      g.cells i j = 0 → (i, j) ∈ ec)) (by rw [consistent])

/-- Random draws for a concrete 3 × 3 run: cell `(0, 0)` Empty, cell
`(1, 1)` Type A, every other cell Type B. -/
def coinsOneEmpty : Coins := fun i j => (decide (i = 0 ∧ j = 0), decide (i = 1 ∧ j = 1))

/-- The state produced by relocating the dissatisfied agent at `(1, 1)` of
the `coinsOneEmpty` grid into its single empty cell `(0, 0)`. -/
def movedState : SimState :=
  ⟨⟨3, fun i j =>
      if i = 1 ∧ j = 1 then 0
      else if i = 0 ∧ j = 0 then 1
      else (initialize_grid 3 coinsOneEmpty).1.cells i j⟩,
    [(1, 1)]⟩

/-- Random draws for a concrete 3 × 3 run with no Empty cell at all: cell
`(1, 1)` Type A, every other cell Type B. -/
def coinsNoEmpty : Coins := fun i j => (false, decide (i = 1 ∧ j = 1))

/-- The defined (non-sentinel) similarity values over all grid
coordinates. -/
def definedSimilarities (g : Grid) : List ℚ :=
  (coordList g.size).filterMap fun p => fraction_neighbors_same p.1 p.2 g

/-- Random draws for a concrete 1 × 1 run: the single cell is Type A. -/
def coinsAllA : Coins := fun _ _ => (false, true)

/-! ### Lemmas and verified claims -/

lemma foldl_countStep (g : Grid) (agent x y : ℕ) (l : List (ℤ × ℤ)) :
    ∀ a b : ℕ,
      l.foldl (countStep g agent x y) (a, b) =
        (a + (l.map (wrap g x y)).countP
          (fun p => decide (0 < g.cells p.1 p.2 ∧ g.cells p.1 p.2 = agent)),
         b + (l.map (wrap g x y)).countP (fun p => decide (0 < g.cells p.1 p.2))) := by
  induction l with
  | nil => intro a b; simp
  | cons d l ih =>
    intro a b
    rw [List.foldl_cons, List.map_cons, List.countP_cons, List.countP_cons]
    by_cases h1 : 0 < g.cells (wrap g x y d).1 (wrap g x y d).2
    · by_cases h2 : g.cells (wrap g x y d).1 (wrap g x y d).2 = agent
      · have h3 : 0 < agent := h2 ▸ h1
        simp [countStep, h1, h2, h3, ih, Prod.ext_iff] <;> omega
      · simp [countStep, h1, h2, ih, Prod.ext_iff] <;> omega
    · simp [countStep, h1, ih, Prod.ext_iff] <;> omega

/-- Evaluating `fraction_neighbors_same` on an occupied cell, written through the
spec-level counts. -/
lemma fraction_neighbors_same_eq_counts (g : Grid) (x y : ℕ)
    (hagent : g.cells x y ≠ 0) :
    fraction_neighbors_same x y g =
      if totalCount g x y = 0 then none
      else some ((sameCount g x y : ℚ) / (totalCount g x y : ℚ)) := by
  rw [fraction_neighbors_same]
  simp only [hagent, if_neg, foldl_countStep g (g.cells x y) x y directions 0 0,
    Nat.zero_add]
  rfl

/-- Claim C2: on a grid of size at least 1, an in-range occupied cell with
at least one non-Empty wrapped Moore neighbor gets `same / total`, the
list of examined neighbors has length exactly 8 (also at edges and
corners), and the result lies in `[0, 1]`. -/
theorem fraction_neighbors_same_spec (g : Grid) (x y : ℕ)
    (hsize : 1 ≤ g.size) (hx : x < g.size) (hy : y < g.size)
    (hocc : g.cells x y ≠ 0)
    (hnb : ∃ p ∈ neighborCoords g x y, 0 < g.cells p.1 p.2) :
    fraction_neighbors_same x y g =
        some ((sameCount g x y : ℚ) / (totalCount g x y : ℚ)) ∧
      (neighborCoords g x y).length = 8 ∧
      0 ≤ (sameCount g x y : ℚ) / (totalCount g x y : ℚ) ∧
      (sameCount g x y : ℚ) / (totalCount g x y : ℚ) ≤ 1 := by
  have htot : 0 < totalCount g x y := by
    rw [totalCount, List.countP_pos_iff]
    obtain ⟨p, hp, hpv⟩ := hnb
    exact ⟨p, hp, by simpa using hpv⟩
  have hle : sameCount g x y ≤ totalCount g x y := by
    apply List.countP_mono_left
    intro p _ h
    simp only [decide_eq_true_eq] at h ⊢
    exact h.1
  refine ⟨?_, ?_, ?_, ?_⟩
  · rw [fraction_neighbors_same_eq_counts g x y hocc, if_neg htot.ne']
  · rfl
  · positivity
  · rw [div_le_one (by exact_mod_cast htot)]
    exact_mod_cast hle

/-- Claim C3: `fraction_neighbors_same` returns the `none` sentinel exactly
when the cell is Empty or all eight wrapped Moore neighbors are Empty, and
the sentinel is distinct from every legitimate fraction. -/
theorem fraction_neighbors_same_none_iff (g : Grid) (x y : ℕ)
    (hx : x < g.size) (hy : y < g.size) :
    (fraction_neighbors_same x y g = none ↔
      g.cells x y = 0 ∨ ∀ p ∈ neighborCoords g x y, g.cells p.1 p.2 = 0) ∧
    ∀ q : ℚ, (none : Option ℚ) ≠ some q := by
  refine ⟨?_, fun q h => Option.noConfusion h⟩
  by_cases hagent : g.cells x y = 0
  · simp [fraction_neighbors_same, hagent]
  · rw [fraction_neighbors_same_eq_counts g x y hagent]
    have : totalCount g x y = 0 ↔ ∀ p ∈ neighborCoords g x y, g.cells p.1 p.2 = 0 := by
      rw [totalCount, List.countP_eq_zero]
      constructor
      · intro h p hp
        have := h p hp
        simp only [decide_eq_true_eq] at this
        omega
      · intro h p hp
        simp [h p hp]
    constructor
    · intro hnone
      by_cases ht : totalCount g x y = 0
      · exact Or.inr (this.mp ht)
      · rw [if_neg ht] at hnone
        exact Option.noConfusion hnone
    · intro hor
      rcases hor with h0 | hall
      · exact absurd h0 hagent
      · rw [if_pos (this.mpr hall)]

/-- Claim C4: `is_satisfied` is true exactly when the similarity fraction
is the `none` sentinel or is a fraction at least the threshold (equality
counts as satisfied). -/
theorem is_satisfied_iff (x y : ℕ) (g : Grid) (t : ℚ) :
    is_satisfied x y g t = true ↔
      fraction_neighbors_same x y g = none ∨
      ∃ q, fraction_neighbors_same x y g = some q ∧ t ≤ q := by
  rw [is_satisfied]
  cases h : fraction_neighbors_same x y g with
  | none => simp
  | some q => simp [h]

lemma mem_coordList {size : ℕ} {p : ℕ × ℕ} :
    p ∈ coordList size ↔ p.1 < size ∧ p.2 < size := by
  obtain ⟨a, b⟩ := p
  simp [coordList]

lemma nodup_coordList (size : ℕ) : (coordList size).Nodup :=
  (List.nodup_range size).product (List.nodup_range size)

/-- A consistent empty-cell list has exactly one entry per Empty cell. -/
lemma consistent_length {g : Grid} {ec : List (ℕ × ℕ)} (hc : consistent g ec) :
    ec.length = cellCount g 0 := by
  obtain ⟨hnd, hmem, hcomp⟩ := hc
  have hiff : ∀ p, p ∈ ec ↔
      p ∈ (coordList g.size).filter fun p => decide (g.cells p.1 p.2 = 0) := by
    intro p
    simp only [List.mem_filter, mem_coordList, decide_eq_true_eq]
    constructor
    · intro hp
      obtain ⟨h1, h2, h3⟩ := hmem p hp
      exact ⟨⟨h1, h2⟩, h3⟩
    · rintro ⟨⟨h1, h2⟩, h3⟩
      exact hcomp p.1 (List.mem_range.mpr h1) p.2 (List.mem_range.mpr h2) h3
  have hnd2 : ((coordList g.size).filter
      fun p => decide (g.cells p.1 p.2 = 0)).Nodup := (nodup_coordList _).filter _
  have hperm : List.Perm ec
      ((coordList g.size).filter fun p => decide (g.cells p.1 p.2 = 0)) :=
    List.perm_of_nodup_nodup_toFinset_eq hnd hnd2 (by
      ext p
      simp only [List.mem_toFinset]
      exact hiff p)
  rw [hperm.length_eq, cellCount, List.countP_eq_length_filter]

lemma filterMap_ite {α β : Type} (f : α → β) (q : α → Bool) (l : List α) :
    (l.filterMap fun a => if q a then some (f a) else none) = (l.filter q).map f := by
  induction l with
  | nil => rfl
  | cons a l ih =>
    by_cases h : q a <;> simp [List.filterMap_cons, List.filter_cons, h, ih]

lemma initialize_grid_snd (size : ℕ) (coins : Coins) :
    (initialize_grid size coins).2 =
      (coordList size).filter fun p => (coins p.1 p.2).1 := by
  have key : ∀ l : List ℕ,
      (l.flatMap fun i =>
        (List.range size).filterMap fun j =>
          if (coins i j).1 then some (i, j) else none) =
      ((l.flatMap fun i => (List.range size).map (Prod.mk i)).filter
        fun p => (coins p.1 p.2).1) := by
    intro l
    induction l with
    | nil => rfl
    | cons a l ih =>
      rw [List.flatMap_cons, List.flatMap_cons, List.filter_append, ih,
        filterMap_ite (fun j => (a, j)) (fun j => (coins a j).1), List.filter_map]
      rfl
  exact key (List.range size)

lemma initialize_grid_cells_eq_zero (size : ℕ) (coins : Coins) (i j : ℕ) :
    (initialize_grid size coins).1.cells i j = 0 ↔ (coins i j).1 = true := by
  show (if (coins i j).1 then 0 else if (coins i j).2 then 1 else 2) = 0 ↔ _
  cases h1 : (coins i j).1 <;> cases h2 : (coins i j).2 <;> simp [h1, h2]

/-- Lemma: `initialize_grid` populates the grid and the empty list consistently. -/
lemma initialize_consistent (size : ℕ) (coins : Coins) :
    consistent (initialize_grid size coins).1 (initialize_grid size coins).2 := by
  rw [consistent, initialize_grid_snd]
  refine ⟨(nodup_coordList size).filter _, ?_, ?_⟩
  · intro p hp
    rw [List.mem_filter] at hp
    obtain ⟨hp1, hp2⟩ := hp
    rw [mem_coordList] at hp1
    exact ⟨hp1.1, hp1.2, (initialize_grid_cells_eq_zero size coins p.1 p.2).mpr hp2⟩
  · intro i hi j hj h0
    rw [List.mem_filter]
    refine ⟨mem_coordList.mpr ⟨List.mem_range.mp hi, List.mem_range.mp hj⟩, ?_⟩
    exact (initialize_grid_cells_eq_zero size coins i j).mp h0

lemma is_satisfied_false_occupied {x y : ℕ} {g : Grid} {t : ℚ}
    (h : is_satisfied x y g t = false) : g.cells x y ≠ 0 := by
  intro h0
  rw [is_satisfied, fraction_neighbors_same] at h
  simp [h0] at h

/-- A satisfied sample leaves the state untouched. -/
lemma updateIter_not_move (size : ℕ) (thr : ℚ) (st : SimState) (b : Bool) (pick : Pick)
    (hsat : is_satisfied (pick.1.1 % size) (pick.1.2 % size) st.grid thr = true) :
    updateIter size thr (some (st, b)) pick = some (st, b) := by
  rw [updateIter]
  simp [hsat]

/-- An unsatisfied sample with an exhausted empty list faults
(`np.random.randint 0` raises `ValueError`). -/
lemma updateIter_fault (size : ℕ) (thr : ℚ) (st : SimState) (b : Bool) (pick : Pick)
    (hsat : is_satisfied (pick.1.1 % size) (pick.1.2 % size) st.grid thr = false)
    (hlen : st.emptycells.length = 0) :
    updateIter size thr (some (st, b)) pick = none := by
  rw [updateIter]
  simp [hsat, hlen]

/-- Explicit description of the state after a relocation. -/
lemma updateIter_move {size : ℕ} {thr : ℚ} {st st2 : SimState} {b b2 : Bool} {pick : Pick}
    (h : updateIter size thr (some (st, b)) pick = some (st2, b2))
    (hsat : is_satisfied (pick.1.1 % size) (pick.1.2 % size) st.grid thr = false) :
    st.emptycells.length ≠ 0 ∧
    b2 = true ∧
    st2.grid.size = st.grid.size ∧
    st2.emptycells = st.emptycells.set (pick.2 % st.emptycells.length)
      (pick.1.1 % size, pick.1.2 % size) ∧
    ∀ i j, st2.grid.cells i j =
      if i = pick.1.1 % size ∧ j = pick.1.2 % size then 0
      else if i = (st.emptycells.getD (pick.2 % st.emptycells.length) (0, 0)).1 ∧
          j = (st.emptycells.getD (pick.2 % st.emptycells.length) (0, 0)).2 then
        st.grid.cells (pick.1.1 % size) (pick.1.2 % size)
      else st.grid.cells i j := by
  rw [updateIter] at h
  simp only [hsat, Bool.false_eq_true, if_false] at h
  by_cases hlen : st.emptycells.length = 0
  · rw [if_pos hlen] at h
    exact Option.noConfusion h
  · rw [if_neg hlen] at h
    simp only [Option.some.injEq, Prod.mk.injEq] at h
    obtain ⟨hst, hb⟩ := h
    subst hst
    exact ⟨hlen, hb.symm, rfl, rfl, fun i j => rfl⟩

lemma set_elem_mem {α : Type} (l : List α) (n : ℕ) (a : α) (hn : n < l.length) :
    a ∈ l.set n a := by
  rw [List.mem_iff_getElem]
  refine ⟨n, by rw [List.length_set]; exact hn, ?_⟩
  simp

lemma foldl_updateIter_none (size : ℕ) (thr : ℚ) (picks : List Pick) :
    picks.foldl (updateIter size thr) none = none := by
  induction picks with
  | nil => rfl
  | cons p l ih => rw [List.foldl_cons]; exact ih

/-- One loop iteration preserves consistency (and the grid size). -/
lemma consistent_updateIter {size : ℕ} {thr : ℚ} {st st2 : SimState} {b b2 : Bool}
    {pick : Pick}
    (hsz : size = st.grid.size) (hpos : 0 < st.grid.size)
    (hc : consistent st.grid st.emptycells)
    (h : updateIter size thr (some (st, b)) pick = some (st2, b2)) :
    consistent st2.grid st2.emptycells ∧ st2.grid.size = st.grid.size := by
  cases hsat : is_satisfied (pick.1.1 % size) (pick.1.2 % size) st.grid thr with
  | true =>
    rw [updateIter_not_move size thr st b pick hsat] at h
    injection h with h2
    rw [show st2 = st from (congrArg Prod.fst h2).symm]
    exact ⟨hc, rfl⟩
  | false =>
    obtain ⟨hlen, hb2, hsz2, hec2, hcells2⟩ := updateIter_move h hsat
    obtain ⟨hnd, hmem, hcomp⟩ := hc
    have hlpos : 0 < st.emptycells.length := Nat.pos_of_ne_zero hlen
    have hn : pick.2 % st.emptycells.length < st.emptycells.length :=
      Nat.mod_lt _ hlpos
    have hgetD : st.emptycells.getD (pick.2 % st.emptycells.length) (0, 0) =
        st.emptycells[pick.2 % st.emptycells.length] :=
      List.getD_eq_getElem _ _ hn
    have hdst_mem : st.emptycells.getD (pick.2 % st.emptycells.length) (0, 0) ∈
        st.emptycells := hgetD ▸ List.getElem_mem hn
    obtain ⟨hd1, hd2, hd0⟩ := hmem _ hdst_mem
    have hocc : st.grid.cells (pick.1.1 % size) (pick.1.2 % size) ≠ 0 :=
      is_satisfied_false_occupied hsat
    have hxy_notmem : (pick.1.1 % size, pick.1.2 % size) ∉ st.emptycells := by
      intro hmm
      exact hocc (hmem _ hmm).2.2
    have hx : pick.1.1 % size < st.grid.size := hsz ▸ Nat.mod_lt _ (hsz ▸ hpos)
    have hy : pick.1.2 % size < st.grid.size := hsz ▸ Nat.mod_lt _ (hsz ▸ hpos)
    have hne : (pick.1.1 % size, pick.1.2 % size) ≠
        st.emptycells.getD (pick.2 % st.emptycells.length) (0, 0) := by
      intro he
      exact hxy_notmem (he ▸ hdst_mem)
    have hdst_not_mem_set : st.emptycells.getD (pick.2 % st.emptycells.length) (0, 0) ∉
        st.emptycells.set (pick.2 % st.emptycells.length)
          (pick.1.1 % size, pick.1.2 % size) := by
      intro hmm
      rw [List.mem_iff_getElem] at hmm
      obtain ⟨k, hk, hkeq⟩ := hmm
      rw [List.length_set] at hk
      rw [List.getElem_set] at hkeq
      by_cases hkn : pick.2 % st.emptycells.length = k
      · rw [if_pos hkn] at hkeq
        exact hne hkeq
      · rw [if_neg hkn] at hkeq
        rw [hgetD] at hkeq
        exact hkn ((hnd.getElem_inj_iff).mp hkeq).symm
    refine ⟨⟨?_, ?_, ?_⟩, hsz2⟩
    · rw [hec2]
      exact hnd.set hxy_notmem
    · intro p hp
      rw [hec2] at hp
      rcases List.mem_or_eq_of_mem_set hp with hpe | hpe
      · obtain ⟨h1, h2, h3⟩ := hmem p hpe
        have hpne_xy : p ≠ (pick.1.1 % size, pick.1.2 % size) := by
          intro he
          exact hxy_notmem (he ▸ hpe)
        have hpne_dst : p ≠ st.emptycells.getD (pick.2 % st.emptycells.length) (0, 0) := by
          intro he
          exact hdst_not_mem_set (he ▸ hp)
        have c1 : ¬(p.1 = pick.1.1 % size ∧ p.2 = pick.1.2 % size) := by
          intro hcc
          exact hpne_xy (Prod.ext hcc.1 hcc.2)
        have c2 : ¬(p.1 = (st.emptycells.getD (pick.2 % st.emptycells.length) (0, 0)).1 ∧
            p.2 = (st.emptycells.getD (pick.2 % st.emptycells.length) (0, 0)).2) := by
          intro hcc
          exact hpne_dst (Prod.ext hcc.1 hcc.2)
        refine ⟨by rw [hsz2]; exact h1, by rw [hsz2]; exact h2, ?_⟩
        rw [hcells2 p.1 p.2, if_neg c1, if_neg c2]
        exact h3
      · rw [hpe]
        exact ⟨by rw [hsz2]; exact hx, by rw [hsz2]; exact hy, by simp [hcells2]⟩
    · intro i hi j hj h0
      rw [List.mem_range, hsz2] at hi hj
      rw [hcells2 i j] at h0
      rw [hec2]
      by_cases c1 : i = pick.1.1 % size ∧ j = pick.1.2 % size
      · rw [c1.1, c1.2]
        exact set_elem_mem _ _ _ hn
      · rw [if_neg c1] at h0
        by_cases c2 : i = (st.emptycells.getD (pick.2 % st.emptycells.length) (0, 0)).1 ∧
            j = (st.emptycells.getD (pick.2 % st.emptycells.length) (0, 0)).2
        · rw [if_pos c2] at h0
          exact absurd h0 hocc
        · rw [if_neg c2] at h0
          have hpmem : (i, j) ∈ st.emptycells :=
            hcomp i (List.mem_range.mpr hi) j (List.mem_range.mpr hj) h0
          obtain ⟨k, hk, hkeq⟩ := List.mem_iff_getElem.mp hpmem
          have hkn : pick.2 % st.emptycells.length ≠ k := by
            intro he
            apply c2
            subst he
            have hdk : st.emptycells.getD (pick.2 % st.emptycells.length) (0, 0) = (i, j) :=
              hgetD.trans hkeq
            exact ⟨(congrArg Prod.fst hdk).symm, (congrArg Prod.snd hdk).symm⟩
          rw [List.mem_iff_getElem]
          refine ⟨k, by rw [List.length_set]; exact hk, ?_⟩
          rw [List.getElem_set, if_neg hkn]
          exact hkeq

/-- The whole inner loop preserves consistency. -/
lemma consistent_foldl {size : ℕ} {thr : ℚ} :
    ∀ (picks : List Pick) (st st2 : SimState) (b b2 : Bool),
      size = st.grid.size → 0 < st.grid.size → consistent st.grid st.emptycells →
      picks.foldl (updateIter size thr) (some (st, b)) = some (st2, b2) →
      consistent st2.grid st2.emptycells ∧ st2.grid.size = st.grid.size := by
  intro picks
  induction picks with
  | nil =>
    intro st st2 b b2 hsz hpos hc h
    simp only [List.foldl_nil, Option.some.injEq, Prod.mk.injEq] at h
    rw [← h.1]
    exact ⟨hc, rfl⟩
  | cons p l ih =>
    intro st st2 b b2 hsz hpos hc h
    rw [List.foldl_cons] at h
    cases hstep : updateIter size thr (some (st, b)) p with
    | none =>
      rw [hstep, foldl_updateIter_none] at h
      exact Option.noConfusion h
    | some r =>
      obtain ⟨st3, b3⟩ := r
      rw [hstep] at h
      obtain ⟨hc3, hsz3⟩ := consistent_updateIter hsz hpos hc hstep
      have hsz4 : size = st3.grid.size := by rw [hsz3]; exact hsz
      have hpos3 : 0 < st3.grid.size := by rw [hsz3]; exact hpos
      obtain ⟨hc2, hsz5⟩ := ih st3 st2 b3 b2 hsz4 hpos3 hc3 h
      exact ⟨hc2, hsz5.trans hsz3⟩

/-- A completed `update` call preserves consistency and the grid size. -/
lemma consistent_update {g g2 : Grid} {ec ec2 : List (ℕ × ℕ)} {b2 : Bool} {thr : ℚ}
    {picks : List Pick}
    (hpos : 0 < g.size) (hc : consistent g ec)
    (h : update g ec g.size thr picks = some (g2, ec2, b2)) :
    consistent g2 ec2 ∧ g2.size = g.size := by
  rw [update] at h
  cases hres : picks.foldl (updateIter g.size thr) (some (⟨g, ec⟩, false)) with
  | none =>
    rw [hres] at h
    exact Option.noConfusion h
  | some r =>
    obtain ⟨st2, b3⟩ := r
    rw [hres] at h
    simp only [Option.map_some', Option.some.injEq, Prod.mk.injEq] at h
    obtain ⟨hg, hec, hb⟩ := h
    have hkey := consistent_foldl picks ⟨g, ec⟩ st2 false b3 rfl hpos hc hres
    rw [← hg, ← hec]
    exact hkey

lemma reachable_consistent_pos {g : Grid} {ec : List (ℕ × ℕ)}
    (hr : Reachable g ec) : consistent g ec ∧ 0 < g.size := by
  induction hr with
  | init size coins hpos => exact ⟨initialize_consistent size coins, hpos⟩
  | step g ec thr picks g2 ec2 b hr h ih =>
    obtain ⟨hc, hpos⟩ := ih
    obtain ⟨hc2, hsz⟩ := consistent_update hpos hc h
    exact ⟨hc2, by rw [hsz]; exact hpos⟩

/-- Claim C1: after initialization and after every completed `update`, the
empty-cell list has no duplicates, its length equals the number of Empty
cells, and its members are exactly the in-range coordinates holding
Empty. -/
theorem empty_index_consistent (g : Grid) (ec : List (ℕ × ℕ))
    (hr : Reachable g ec) :
    ec.Nodup ∧ ec.length = cellCount g 0 ∧
    ∀ p : ℕ × ℕ, p ∈ ec ↔ p.1 < g.size ∧ p.2 < g.size ∧ g.cells p.1 p.2 = 0 := by
  obtain ⟨⟨hnd, hmem, hcomp⟩, _⟩ := reachable_consistent_pos hr
  refine ⟨hnd, consistent_length ⟨hnd, hmem, hcomp⟩, fun p => ⟨hmem p, ?_⟩⟩
  rintro ⟨h1, h2, h3⟩
  exact hcomp p.1 (List.mem_range.mpr h1) p.2 (List.mem_range.mpr h2) h3

theorem empty_index_consistent_witness :
    (initialize_grid 2 coinsAllEmpty).2.Nodup ∧
    (initialize_grid 2 coinsAllEmpty).2.length =
      cellCount (initialize_grid 2 coinsAllEmpty).1 0 ∧
    ∀ p : ℕ × ℕ, p ∈ (initialize_grid 2 coinsAllEmpty).2 ↔
      p.1 < (initialize_grid 2 coinsAllEmpty).1.size ∧
      p.2 < (initialize_grid 2 coinsAllEmpty).1.size ∧
      (initialize_grid 2 coinsAllEmpty).1.cells p.1 p.2 = 0 :=
  empty_index_consistent _ _ (Reachable.init 2 coinsAllEmpty (by decide))

lemma fraction_neighbors_same_nonneg {x y : ℕ} {g : Grid} {q : ℚ}
    (h : fraction_neighbors_same x y g = some q) : 0 ≤ q := by
  by_cases h0 : g.cells x y = 0
  · simp [fraction_neighbors_same, h0] at h
  · rw [fraction_neighbors_same_eq_counts g x y h0] at h
    by_cases ht : totalCount g x y = 0
    · rw [if_pos ht] at h
      exact Option.noConfusion h
    · rw [if_neg ht] at h
      injection h with hq
      rw [← hq]
      positivity

lemma is_satisfied_zero (x y : ℕ) (g : Grid) : is_satisfied x y g 0 = true := by
  rw [is_satisfied]
  cases h : fraction_neighbors_same x y g with
  | none => rfl
  | some q => simpa using fraction_neighbors_same_nonneg h

lemma update_zero (g : Grid) (ec : List (ℕ × ℕ)) (size : ℕ) (picks : List Pick) :
    update g ec size 0 picks = some (g, ec, false) := by
  rw [update]
  have hfold : picks.foldl (updateIter size 0) (some (⟨g, ec⟩, false)) =
      some (⟨g, ec⟩, false) := by
    induction picks with
    | nil => rfl
    | cons p l ih =>
      rw [List.foldl_cons,
        updateIter_not_move size 0 ⟨g, ec⟩ false p (is_satisfied_zero _ _ _)]
      exact ih
  rw [hfold]
  rfl

/-- Claim C9: with `similarity_threshold = 0` every sampled cell is
satisfied, so every tick reports `moved = false` and the grid and
empty-cell list stay exactly as initialized, whatever the random draws. -/
theorem run_updates_zero_threshold (g : Grid) (ec : List (ℕ × ℕ)) (size : ℕ)
    (pickss : List (List Pick)) :
    run_updates g ec size 0 pickss = some (g, ec, pickss.map fun _ => false) := by
  induction pickss with
  | nil => rfl
  | cons picks rest ih =>
    simp [run_updates, update_zero, ih]

/-- A predicate counts the same over a duplicate-free list when its values
at two distinct members are exchanged and all other members are
untouched. -/
lemma countP_eq_of_swap {α : Type} [DecidableEq α] (l : List α) (f f2 : α → Bool)
    (a b : α) (hnd : l.Nodup) (ha : a ∈ l) (hb : b ∈ l) (hab : a ≠ b)
    (hfa : f2 a = f b) (hfb : f2 b = f a)
    (hother : ∀ c ∈ l, c ≠ a → c ≠ b → f2 c = f c) :
    l.countP f2 = l.countP f := by
  have hb2 : b ∈ l.erase a := (List.mem_erase_of_ne hab.symm).mpr hb
  have h3 : List.Perm l (a :: b :: (l.erase a).erase b) :=
    (List.perm_cons_erase ha).trans (List.Perm.cons a (List.perm_cons_erase hb2))
  have hrest : ∀ c ∈ (l.erase a).erase b, c ≠ a ∧ c ≠ b ∧ c ∈ l := by
    intro c hc
    have hc1 : c ∈ l.erase a := List.mem_of_mem_erase hc
    refine ⟨?_, ?_, List.mem_of_mem_erase hc1⟩
    · intro he
      exact hnd.not_mem_erase (he ▸ hc1)
    · intro he
      exact (hnd.erase a).not_mem_erase (he ▸ hc)
  rw [h3.countP_eq f2, h3.countP_eq f]
  simp only [List.countP_cons]
  have hcongr : ((l.erase a).erase b).countP f2 = ((l.erase a).erase b).countP f := by
    apply List.countP_congr
    intro c hc
    obtain ⟨h1, h2, h3⟩ := hrest c hc
    rw [hother c h3 h1 h2]
  rw [hcongr, hfa, hfb]
  omega

/-- Facts common to every relocation: the sampled source is occupied, the
drawn destination is a listed (hence Empty, in-range) cell distinct from
the source, and the new grid is the two-cell rewrite of the old. -/
lemma relocation_core {size : ℕ} {thr : ℚ} {st st2 : SimState} {b2 : Bool} {pick : Pick}
    (hc : consistent st.grid st.emptycells)
    (h : updateIter size thr (some (st, false)) pick = some (st2, b2))
    (hb2 : b2 = true) :
    st.grid.cells (pick.1.1 % size) (pick.1.2 % size) ≠ 0 ∧
    st.emptycells.getD (pick.2 % st.emptycells.length) (0, 0) ∈ st.emptycells ∧
    st.emptycells.getD (pick.2 % st.emptycells.length) (0, 0) ≠
      (pick.1.1 % size, pick.1.2 % size) ∧
    st2.grid.size = st.grid.size ∧
    (∀ i j, st2.grid.cells i j =
      if i = pick.1.1 % size ∧ j = pick.1.2 % size then 0
      else if i = (st.emptycells.getD (pick.2 % st.emptycells.length) (0, 0)).1 ∧
          j = (st.emptycells.getD (pick.2 % st.emptycells.length) (0, 0)).2 then
        st.grid.cells (pick.1.1 % size) (pick.1.2 % size)
      else st.grid.cells i j) := by
  subst hb2
  cases hsat : is_satisfied (pick.1.1 % size) (pick.1.2 % size) st.grid thr with
  | true =>
    rw [updateIter_not_move size thr st false pick hsat] at h
    simp at h
  | false =>
    obtain ⟨hlen, _, hsz2, hec2, hcells2⟩ := updateIter_move h hsat
    obtain ⟨hnd, hmem, hcomp⟩ := hc
    have hn : pick.2 % st.emptycells.length < st.emptycells.length :=
      Nat.mod_lt _ (Nat.pos_of_ne_zero hlen)
    have hgetD : st.emptycells.getD (pick.2 % st.emptycells.length) (0, 0) =
        st.emptycells[pick.2 % st.emptycells.length] :=
      List.getD_eq_getElem _ _ hn
    have hdst_mem : st.emptycells.getD (pick.2 % st.emptycells.length) (0, 0) ∈
        st.emptycells := hgetD ▸ List.getElem_mem hn
    have hocc : st.grid.cells (pick.1.1 % size) (pick.1.2 % size) ≠ 0 :=
      is_satisfied_false_occupied hsat
    refine ⟨hocc, hdst_mem, ?_, hsz2, hcells2⟩
    intro he
    exact hocc ((he ▸ (hmem _ hdst_mem)).2.2)

/-- Claim C5: a relocation performed inside `update` empties the vacated
source cell, writes the agent's former type code at the drawn empty-index
entry, leaves every other grid cell unchanged, and conserves the count of
every cell code over the whole grid. -/
theorem relocation_effect (st st2 : SimState) (thr : ℚ) (pick : Pick)
    (hc : consistent st.grid st.emptycells)
    (h : updateIter st.grid.size thr (some (st, false)) pick = some (st2, true)) :
    st2.grid.cells (pick.1.1 % st.grid.size) (pick.1.2 % st.grid.size) = 0 ∧
    st2.grid.cells (st.emptycells.getD (pick.2 % st.emptycells.length) (0, 0)).1
        (st.emptycells.getD (pick.2 % st.emptycells.length) (0, 0)).2 =
      st.grid.cells (pick.1.1 % st.grid.size) (pick.1.2 % st.grid.size) ∧
    (∀ i j, ¬(i = pick.1.1 % st.grid.size ∧ j = pick.1.2 % st.grid.size) →
      ¬(i = (st.emptycells.getD (pick.2 % st.emptycells.length) (0, 0)).1 ∧
        j = (st.emptycells.getD (pick.2 % st.emptycells.length) (0, 0)).2) →
      st2.grid.cells i j = st.grid.cells i j) ∧
    (∀ v : ℕ, cellCount st2.grid v = cellCount st.grid v) := by
  obtain ⟨hocc, hdst_mem, hdst_ne, hsz2, hcells2⟩ := relocation_core hc h rfl
  obtain ⟨hnd, hmem, hcomp⟩ := hc
  obtain ⟨hd1, hd2, hd0⟩ := hmem _ hdst_mem
  have hdiff : ¬((st.emptycells.getD (pick.2 % st.emptycells.length) (0, 0)).1 =
      pick.1.1 % st.grid.size ∧
      (st.emptycells.getD (pick.2 % st.emptycells.length) (0, 0)).2 =
      pick.1.2 % st.grid.size) := by
    intro hcc
    exact hdst_ne (Prod.ext hcc.1 hcc.2)
  have hsrc0 : st2.grid.cells (pick.1.1 % st.grid.size) (pick.1.2 % st.grid.size) = 0 := by
    rw [hcells2]
    simp
  have hdstv : st2.grid.cells
      (st.emptycells.getD (pick.2 % st.emptycells.length) (0, 0)).1
      (st.emptycells.getD (pick.2 % st.emptycells.length) (0, 0)).2 =
      st.grid.cells (pick.1.1 % st.grid.size) (pick.1.2 % st.grid.size) := by
    rw [hcells2, if_neg hdiff, if_pos ⟨rfl, rfl⟩]
  have hother : ∀ i j, ¬(i = pick.1.1 % st.grid.size ∧ j = pick.1.2 % st.grid.size) →
      ¬(i = (st.emptycells.getD (pick.2 % st.emptycells.length) (0, 0)).1 ∧
        j = (st.emptycells.getD (pick.2 % st.emptycells.length) (0, 0)).2) →
      st2.grid.cells i j = st.grid.cells i j := by
    intro i j c1 c2
    rw [hcells2, if_neg c1, if_neg c2]
  refine ⟨hsrc0, hdstv, hother, ?_⟩
  intro v
  rw [cellCount, cellCount, hsz2]
  apply countP_eq_of_swap (coordList st.grid.size) _ _
    (pick.1.1 % st.grid.size, pick.1.2 % st.grid.size)
    (st.emptycells.getD (pick.2 % st.emptycells.length) (0, 0)) (nodup_coordList _)
  · exact mem_coordList.mpr
      ⟨Nat.mod_lt _ (Nat.pos_of_ne_zero (by
          intro h0
          rw [h0] at hd1
          omega)),
        Nat.mod_lt _ (Nat.pos_of_ne_zero (by
          intro h0
          rw [h0] at hd1
          omega))⟩
  · exact mem_coordList.mpr ⟨hd1, hd2⟩
  · exact fun he => hdst_ne he.symm
  · simp only [hsrc0, hd0]
  · simp only [hdstv]
  · intro c hcl c1 c2
    have e1 : ¬(c.1 = pick.1.1 % st.grid.size ∧ c.2 = pick.1.2 % st.grid.size) := by
      intro hcc
      exact c1 (Prod.ext hcc.1 hcc.2)
    have e2 : ¬(c.1 = (st.emptycells.getD (pick.2 % st.emptycells.length) (0, 0)).1 ∧
        c.2 = (st.emptycells.getD (pick.2 % st.emptycells.length) (0, 0)).2) := by
      intro hcc
      exact c2 (Prod.ext hcc.1 hcc.2)
    rw [hother c.1 c.2 e1 e2]

/-- Claim C10: in a reachable state, whenever `update`'s loop body
relocates an agent, the sampled source cell is occupied and the drawn
destination differs from the source; the two writes of the simultaneous
assignment therefore hit different cells and the moved agent's code
survives at the destination. -/
theorem move_never_erases (g : Grid) (ec : List (ℕ × ℕ)) (thr : ℚ) (pick : Pick)
    (st2 : SimState) (hr : Reachable g ec)
    (h : updateIter g.size thr (some (⟨g, ec⟩, false)) pick = some (st2, true)) :
    g.cells (pick.1.1 % g.size) (pick.1.2 % g.size) ≠ 0 ∧
    ec.getD (pick.2 % ec.length) (0, 0) ≠ (pick.1.1 % g.size, pick.1.2 % g.size) ∧
    st2.grid.cells (ec.getD (pick.2 % ec.length) (0, 0)).1
        (ec.getD (pick.2 % ec.length) (0, 0)).2 =
      g.cells (pick.1.1 % g.size) (pick.1.2 % g.size) ∧
    st2.grid.cells (ec.getD (pick.2 % ec.length) (0, 0)).1
        (ec.getD (pick.2 % ec.length) (0, 0)).2 ≠ 0 := by
  obtain ⟨hc, hpos⟩ := reachable_consistent_pos hr
  obtain ⟨hocc, hdst_mem, hdst_ne, hsz2, hcells2⟩ := relocation_core hc h rfl
  have hdiff : ¬((ec.getD (pick.2 % ec.length) (0, 0)).1 = pick.1.1 % g.size ∧
      (ec.getD (pick.2 % ec.length) (0, 0)).2 = pick.1.2 % g.size) := by
    intro hcc
    exact hdst_ne (Prod.ext hcc.1 hcc.2)
  have hdstv : st2.grid.cells (ec.getD (pick.2 % ec.length) (0, 0)).1
      (ec.getD (pick.2 % ec.length) (0, 0)).2 =
      g.cells (pick.1.1 % g.size) (pick.1.2 % g.size) := by
    rw [hcells2, if_neg hdiff, if_pos ⟨rfl, rfl⟩]
  refine ⟨hocc, hdst_ne, hdstv, ?_⟩
  rw [hdstv]
  exact hocc

lemma w_frac : fraction_neighbors_same 1 1 (initialize_grid 3 coinsOneEmpty).1 =
    some ((0 : ℚ) / 7) := by
  rw [fraction_neighbors_same_eq_counts _ _ _ (by decide)]
  have h1 : totalCount (initialize_grid 3 coinsOneEmpty).1 1 1 = 7 := by decide
  have h2 : sameCount (initialize_grid 3 coinsOneEmpty).1 1 1 = 0 := by decide
  rw [h1, h2]
  norm_num

lemma w_hsat : is_satisfied 1 1 (initialize_grid 3 coinsOneEmpty).1 (1 / 2) = false := by
  rw [is_satisfied, w_frac]
  show decide ((1 : ℚ) / 2 ≤ 0 / 7) = false
  simp only [decide_eq_false_iff_not]
  norm_num

/-- Concrete relocation step: the loop body moves the agent at `(1, 1)`
into `(0, 0)` and reports a move. -/
lemma w_step : updateIter (initialize_grid 3 coinsOneEmpty).1.size (1 / 2)
    (some (⟨(initialize_grid 3 coinsOneEmpty).1, (initialize_grid 3 coinsOneEmpty).2⟩, false))
    ((1, 1), 0) = some (movedState, true) := by
  have hsat : is_satisfied (1 % (initialize_grid 3 coinsOneEmpty).1.size)
      (1 % (initialize_grid 3 coinsOneEmpty).1.size)
      (initialize_grid 3 coinsOneEmpty).1 (1 / 2) = false := w_hsat
  simp only [updateIter, hsat, Bool.false_eq_true, if_false]
  rw [if_neg (by decide)]
  rfl

theorem move_never_erases_witness :
    (initialize_grid 3 coinsOneEmpty).1.cells (1 % (initialize_grid 3 coinsOneEmpty).1.size)
        (1 % (initialize_grid 3 coinsOneEmpty).1.size) ≠ 0 ∧
    (initialize_grid 3 coinsOneEmpty).2.getD
        (0 % (initialize_grid 3 coinsOneEmpty).2.length) (0, 0) ≠
      (1 % (initialize_grid 3 coinsOneEmpty).1.size,
        1 % (initialize_grid 3 coinsOneEmpty).1.size) ∧
    movedState.grid.cells
        ((initialize_grid 3 coinsOneEmpty).2.getD
          (0 % (initialize_grid 3 coinsOneEmpty).2.length) (0, 0)).1
        ((initialize_grid 3 coinsOneEmpty).2.getD
          (0 % (initialize_grid 3 coinsOneEmpty).2.length) (0, 0)).2 =
      (initialize_grid 3 coinsOneEmpty).1.cells
        (1 % (initialize_grid 3 coinsOneEmpty).1.size)
        (1 % (initialize_grid 3 coinsOneEmpty).1.size) ∧
    movedState.grid.cells
        ((initialize_grid 3 coinsOneEmpty).2.getD
          (0 % (initialize_grid 3 coinsOneEmpty).2.length) (0, 0)).1
        ((initialize_grid 3 coinsOneEmpty).2.getD
          (0 % (initialize_grid 3 coinsOneEmpty).2.length) (0, 0)).2 ≠ 0 :=
  move_never_erases (initialize_grid 3 coinsOneEmpty).1 (initialize_grid 3 coinsOneEmpty).2
    (1 / 2) ((1, 1), 0) movedState (Reachable.init 3 coinsOneEmpty (by decide)) w_step

theorem relocation_effect_witness :
    movedState.grid.cells
        (1 % (initialize_grid 3 coinsOneEmpty).1.size)
        (1 % (initialize_grid 3 coinsOneEmpty).1.size) = 0 ∧
    movedState.grid.cells
        ((initialize_grid 3 coinsOneEmpty).2.getD
          (0 % (initialize_grid 3 coinsOneEmpty).2.length) (0, 0)).1
        ((initialize_grid 3 coinsOneEmpty).2.getD
          (0 % (initialize_grid 3 coinsOneEmpty).2.length) (0, 0)).2 =
      (initialize_grid 3 coinsOneEmpty).1.cells
        (1 % (initialize_grid 3 coinsOneEmpty).1.size)
        (1 % (initialize_grid 3 coinsOneEmpty).1.size) ∧
    (∀ i j, ¬(i = 1 % (initialize_grid 3 coinsOneEmpty).1.size ∧
        j = 1 % (initialize_grid 3 coinsOneEmpty).1.size) →
      ¬(i = ((initialize_grid 3 coinsOneEmpty).2.getD
          (0 % (initialize_grid 3 coinsOneEmpty).2.length) (0, 0)).1 ∧
        j = ((initialize_grid 3 coinsOneEmpty).2.getD
          (0 % (initialize_grid 3 coinsOneEmpty).2.length) (0, 0)).2) →
      movedState.grid.cells i j = (initialize_grid 3 coinsOneEmpty).1.cells i j) ∧
    (∀ v : ℕ, cellCount movedState.grid v =
      cellCount (initialize_grid 3 coinsOneEmpty).1 v) :=
  relocation_effect ⟨(initialize_grid 3 coinsOneEmpty).1, (initialize_grid 3 coinsOneEmpty).2⟩
    movedState (1 / 2) ((1, 1), 0) (by decide) w_step

/-- Claim C6, evaluated at the failing input: on a grid with no Empty cell
the dissatisfied agent at `(1, 1)` triggers `np.random.randint(0)`, which
raises `ValueError` — the embedded `update` returns the fault marker
`none` instead of treating the cell as satisfied. -/
lemma w2_frac : fraction_neighbors_same 1 1 (initialize_grid 3 coinsNoEmpty).1 =
    some ((0 : ℚ) / 8) := by
  rw [fraction_neighbors_same_eq_counts _ _ _ (by decide)]
  have h1 : totalCount (initialize_grid 3 coinsNoEmpty).1 1 1 = 8 := by decide
  have h2 : sameCount (initialize_grid 3 coinsNoEmpty).1 1 1 = 0 := by decide
  rw [h1, h2]
  norm_num

lemma w2_hsat : is_satisfied 1 1 (initialize_grid 3 coinsNoEmpty).1 (1 / 2) = false := by
  rw [is_satisfied, w2_frac]
  show decide ((1 : ℚ) / 2 ≤ 0 / 8) = false
  simp only [decide_eq_false_iff_not]
  norm_num

theorem update_empty_index_fault :
    update (initialize_grid 3 coinsNoEmpty).1 (initialize_grid 3 coinsNoEmpty).2 3
      (1 / 2) [((1, 1), 0)] = none := by
  have hsat : is_satisfied (1 % 3) (1 % 3) (initialize_grid 3 coinsNoEmpty).1 (1 / 2) =
      false := w2_hsat
  rw [update, List.foldl_cons,
    updateIter_fault 3 (1 / 2)
      ⟨(initialize_grid 3 coinsNoEmpty).1, (initialize_grid 3 coinsNoEmpty).2⟩
      false ((1, 1), 0) hsat (by decide),
    foldl_updateIter_none]
  rfl

lemma flatMap_filterMap_product {α β γ : Type} (l1 : List α) (l2 : List β)
    (f : α → β → Option γ) :
    (l1.flatMap fun i => l2.filterMap fun j => f i j) =
      (l1 ×ˢ l2).filterMap fun p => f p.1 p.2 := by
  induction l1 with
  | nil => rfl
  | cons a l ih =>
    rw [List.flatMap_cons, List.product_cons, List.filterMap_append, ih, List.filterMap_map]
    rfl

/-- Rewrites `average_neighbor_similarity` through the coordinate list. -/
lemma average_eq (g : Grid) :
    average_neighbor_similarity g =
      if (definedSimilarities g).length = 0 then none
      else some ((definedSimilarities g).sum / ((definedSimilarities g).length : ℚ)) := by
  have hX : ((List.range g.size).flatMap fun i =>
      (List.range g.size).filterMap fun j => fraction_neighbors_same i j g) =
      definedSimilarities g := by
    rw [definedSimilarities, coordList]
    exact flatMap_filterMap_product _ _ _
  show (if ((List.range g.size).flatMap fun i =>
      (List.range g.size).filterMap fun j => fraction_neighbors_same i j g).length = 0
    then none
    else some (((List.range g.size).flatMap fun i =>
        (List.range g.size).filterMap fun j => fraction_neighbors_same i j g).sum /
      ((((List.range g.size).flatMap fun i =>
        (List.range g.size).filterMap fun j =>
          fraction_neighbors_same i j g).length : ℕ) : ℚ))) = _
  rw [hX]

/-- Claim C7: when some coordinate yields a defined similarity, the metric
equals the arithmetic mean of the defined values of
`fraction_neighbors_same` over all grid coordinates, the sentinel results
excluded from both the sum and the count. -/
theorem average_similarity_mean (g : Grid)
    (h : ∃ p ∈ coordList g.size, fraction_neighbors_same p.1 p.2 g ≠ none) :
    average_neighbor_similarity g =
      some ((definedSimilarities g).sum / ((definedSimilarities g).length : ℚ)) := by
  rw [average_eq]
  obtain ⟨p, hp, hne⟩ := h
  obtain ⟨q, hq⟩ := Option.ne_none_iff_exists.mp hne
  have hmem : q ∈ definedSimilarities g :=
    List.mem_filterMap.mpr ⟨p, hp, hq.symm⟩
  have hlen : (definedSimilarities g).length ≠ 0 := by
    have := List.length_pos_of_mem hmem
    omega
  rw [if_neg hlen]

theorem average_similarity_mean_witness :
    (∃ p ∈ coordList (initialize_grid 1 coinsAllA).1.size,
      fraction_neighbors_same p.1 p.2 (initialize_grid 1 coinsAllA).1 ≠ none) ∧
    average_neighbor_similarity (initialize_grid 1 coinsAllA).1 =
      some ((definedSimilarities (initialize_grid 1 coinsAllA).1).sum /
        ((definedSimilarities (initialize_grid 1 coinsAllA).1).length : ℚ)) :=
  ⟨by decide, average_similarity_mean _ (by decide)⟩

/-- Claim C8: when every coordinate yields the sentinel (for instance on
an entirely Empty grid), the metric returns the `nan` sentinel (embedded
as `none`, matching `np.mean` of an empty list) rather than dividing over
the empty collection. -/
theorem average_similarity_all_undefined (g : Grid)
    (h : ∀ p ∈ coordList g.size, fraction_neighbors_same p.1 p.2 g = none) :
    average_neighbor_similarity g = none := by
  rw [average_eq, if_pos]
  rw [definedSimilarities, List.length_eq_zero, List.filterMap_eq_nil_iff]
  exact h

theorem average_similarity_all_undefined_witness :
    (∀ p ∈ coordList (initialize_grid 2 coinsAllEmpty).1.size,
      fraction_neighbors_same p.1 p.2 (initialize_grid 2 coinsAllEmpty).1 = none) ∧
    average_neighbor_similarity (initialize_grid 2 coinsAllEmpty).1 = none :=
  ⟨by decide, average_similarity_all_undefined _ (by decide)⟩

theorem fraction_neighbors_same_spec_witness :
    1 ≤ (initialize_grid 3 coinsOneEmpty).1.size ∧
    0 < (initialize_grid 3 coinsOneEmpty).1.size ∧
    1 < (initialize_grid 3 coinsOneEmpty).1.size ∧
    (initialize_grid 3 coinsOneEmpty).1.cells 0 1 ≠ 0 ∧
    (∃ p ∈ neighborCoords (initialize_grid 3 coinsOneEmpty).1 0 1,
      0 < (initialize_grid 3 coinsOneEmpty).1.cells p.1 p.2) ∧
    (fraction_neighbors_same 0 1 (initialize_grid 3 coinsOneEmpty).1 =
        some ((sameCount (initialize_grid 3 coinsOneEmpty).1 0 1 : ℚ) /
          (totalCount (initialize_grid 3 coinsOneEmpty).1 0 1 : ℚ)) ∧
      (neighborCoords (initialize_grid 3 coinsOneEmpty).1 0 1).length = 8 ∧
      0 ≤ (sameCount (initialize_grid 3 coinsOneEmpty).1 0 1 : ℚ) /
        (totalCount (initialize_grid 3 coinsOneEmpty).1 0 1 : ℚ) ∧
      (sameCount (initialize_grid 3 coinsOneEmpty).1 0 1 : ℚ) /
        (totalCount (initialize_grid 3 coinsOneEmpty).1 0 1 : ℚ) ≤ 1) :=
  ⟨by decide, by decide, by decide, by decide, by decide,
    fraction_neighbors_same_spec (initialize_grid 3 coinsOneEmpty).1 0 1
      (by decide) (by decide) (by decide) (by decide) (by decide)⟩

theorem fraction_neighbors_same_none_iff_witness :
    0 < (initialize_grid 3 coinsOneEmpty).1.size ∧
    ((fraction_neighbors_same 0 0 (initialize_grid 3 coinsOneEmpty).1 = none ↔
        (initialize_grid 3 coinsOneEmpty).1.cells 0 0 = 0 ∨
        ∀ p ∈ neighborCoords (initialize_grid 3 coinsOneEmpty).1 0 0,
          (initialize_grid 3 coinsOneEmpty).1.cells p.1 p.2 = 0) ∧
      ∀ q : ℚ, (none : Option ℚ) ≠ some q) :=
  ⟨by decide,
    fraction_neighbors_same_none_iff (initialize_grid 3 coinsOneEmpty).1 0 0
      (by decide) (by decide)⟩

end Schelling
